import Mathlib

/-!
Verification of the BLE telemetry decoding and metrics-aggregation engine of
SimpleTownBike (`src/ble_manager.py`, `src/workout_manager.py`).

The Python source is shallowly embedded: byte strings become `List Nat`
(each entry one byte), Python floats become `ℚ`, the per-metric storage
dictionary `self.metrics` becomes an association list from metric name to a
list of (value, timestamp) samples, and the notification handlers become
pure state-transformation functions.  `try/except` blocks that catch and log
an exception and leave the rest of the handler unexecuted are modelled by
returning the unchanged store on the failing input.
-/

/-- One stored sample: a value and the `time.time()` timestamp recorded with
it (`ble_manager.py` keeps two parallel lists `values` / `timestamps`; the
handlers always push onto both in lockstep, so a list of pairs is an
equivalent rendering). -/
structure Sample where
  value : ℚ
  timestamp : ℚ
deriving DecidableEq, Repr

/-- A metric's time series (the pair of parallel lists for one key of
`self.metrics`). -/
abbrev Series := List Sample

/-- The metrics dictionary: metric name to series, in insertion order. -/
abbrev Store := List (String × Series)

/-- The nine metric keys created by `BLEManager.__init__`
(`ble_manager.py` lines 32-42), in source order. -/
def metricNames : List String :=
  ["heart_rate", "power", "avg_power", "cadence", "avg_cadence",
   "speed", "avg_speed", "distance", "resistance"]

/-- The store as built by `BLEManager.__init__`: every metric key present
with empty `values` / `timestamps` lists. -/
def initStore : Store := metricNames.map (fun n => (n, []))

/-- `self.metrics[metric]['values'].append(value)` together with
`self.metrics[metric]['timestamps'].append(ts)`: append one sample to the
series of an existing key.  (On a key that is absent Python would raise
`KeyError`; the handlers only ever touch the nine keys of `initStore`, so
that branch is unreachable and the model leaves absent keys untouched.) -/
def storeAppend (st : Store) (name : String) (v t : ℚ) : Store :=
  st.map (fun e => if e.1 = name then (e.1, e.2 ++ [⟨v, t⟩]) else e)

/-- The eviction loop of `_mock_data_loop` (`ble_manager.py` lines 83-86):
`while timestamps and timestamps[0] < cutoff: pop(0)` on both parallel
lists, i.e. drop samples from the front while their timestamp is below the
cutoff. -/
def evict (cutoff : ℚ) (s : Series) : Series :=
  s.dropWhile (fun smp => decide (smp.timestamp < cutoff))

/-- One per-metric body of the mock-data loop (`ble_manager.py` lines
78-86): append the sample at the current time, then evict everything older
than `now - 300` (the five-minute retention window, `cutoff = current_time
- 300`). -/
def appendEvict (s : Series) (v now : ℚ) : Series :=
  evict (now - 300) (s ++ [⟨v, now⟩])

/-- `appendEvict` lifted to the store at one key, as the mock loop performs
it on `self.metrics[metric]`. -/
def storeAppendEvict (st : Store) (name : String) (v now : ℚ) : Store :=
  st.map (fun e => if e.1 = name then (e.1, appendEvict e.2 v now) else e)

/-- `_handle_heart_rate_data` (`ble_manager.py` lines 90-102):
`heart_rate = data[1]` then append to the `heart_rate` series.  A payload
shorter than two bytes makes `data[1]` raise `IndexError`, which the
handler's `except` catches after logging, leaving the store unchanged. -/
def handleHeartRate (data : List Nat) (now : ℚ) (st : Store) : Store :=
  match data.get? 1 with
  | some hr => storeAppend st "heart_rate" (hr : ℚ) now
  | none => st

/-- Little-endian unsigned integer of a byte list:
`int.from_bytes(bs, byteorder='little')`. -/
def leBytes (l : List Nat) : Nat :=
  l.foldr (fun b acc => b + 256 * acc) 0

/-- Python slicing `data[i:i+n]`: silently truncated at the end of the list,
never an error. -/
def pySlice (data : List Nat) (i n : Nat) : List Nat :=
  (data.drop i).take n

/-- The field-extraction body of `_handle_indoor_bike_data`
(`ble_manager.py` lines 108-155): `flags = data[0]`, cursor starts at 2,
and each of the seven flag-gated blocks appends one entry to `metrics_data`
and advances the cursor by the field width (the bit-7 block does not
advance the cursor, exactly as in the source).  Returns the `metrics_data`
mapping in insertion order. -/
def decodeIndoorBike (data : List Nat) : List (String × ℚ) :=
  let flags := data.headD 0
  let s1 : List (String × ℚ) × Nat :=
    if flags &&& (1 <<< 1) ≠ 0 then
      ([("avg_speed", (leBytes (pySlice data 2 2) : ℚ) / 100)], 2 + 2)
    else ([], 2)
  let s2 :=
    if flags &&& (1 <<< 2) ≠ 0 then
      (s1.1 ++ [("cadence", (leBytes (pySlice data s1.2 2) : ℚ) / 2)], s1.2 + 2)
    else s1
  let s3 :=
    if flags &&& (1 <<< 3) ≠ 0 then
      (s2.1 ++ [("avg_cadence", (leBytes (pySlice data s2.2 2) : ℚ) / 2)], s2.2 + 2)
    else s2
  let s4 :=
    if flags &&& (1 <<< 4) ≠ 0 then
      (s3.1 ++ [("distance", (leBytes (pySlice data s3.2 3) : ℚ))], s3.2 + 3)
    else s3
  let s5 :=
    if flags &&& (1 <<< 5) ≠ 0 then
      (s4.1 ++ [("resistance", (leBytes (pySlice data s4.2 2) : ℚ))], s4.2 + 2)
    else s4
  let s6 :=
    if flags &&& (1 <<< 6) ≠ 0 then
      (s5.1 ++ [("power", (leBytes (pySlice data s5.2 2) : ℚ))], s5.2 + 2)
    else s5
  let s7 :=
    if flags &&& (1 <<< 7) ≠ 0 then
      (s6.1 ++ [("avg_power", (leBytes (pySlice data s6.2 2) : ℚ))], s6.2)
    else s6
  s7.1

/-- `_handle_indoor_bike_data` (`ble_manager.py` lines 104-167): decode the
payload and append every decoded entry to its series at the current time
(lines 157-160; no eviction happens here).  An empty payload makes
`data[0]` raise `IndexError`, caught by the handler's `except`, so the
store is returned unchanged. -/
def handleIndoorBike (data : List Nat) (now : ℚ) (st : Store) : Store :=
  match data with
  | [] => st
  | _ :: _ =>
    (decodeIndoorBike data).foldl (fun acc e => storeAppend acc e.1 e.2 now) st

/-- Read one metric's series from the store (dictionary access). -/
def readStore (st : Store) (name : String) : Option Series :=
  List.lookup name st

/-- One row of the field table of spec §4.1: flag bit, metric name, byte
width, and the divisor the raw little-endian value is scaled by. -/
structure BikeField where
  bit : Nat
  name : String
  width : Nat
  scale : ℚ
deriving DecidableEq, Repr

/-- The field table of spec §4.1, in the fixed consumption order. -/
def bikeFieldTable : List BikeField :=
  [⟨1, "avg_speed", 2, 100⟩, ⟨2, "cadence", 2, 2⟩, ⟨3, "avg_cadence", 2, 2⟩,
   ⟨4, "distance", 3, 1⟩, ⟨5, "resistance", 2, 1⟩, ⟨6, "power", 2, 1⟩,
   ⟨7, "avg_power", 2, 1⟩]

/-- Spec-side decoder, written from the words of spec §4.1 for comparison
with `decodeIndoorBike`: walk the table in order with a running offset that
starts at 2; for every field whose flag bit is set, read `width` bytes
little-endian at the offset, divide by the scale, and advance the offset by
the width; fields whose bit is clear contribute nothing and do not move the
offset. -/
def specDecodeAux (data : List Nat) (flags : Nat) :
    List BikeField → Nat → List (String × ℚ)
  | [], _ => []
  | f :: rest, off =>
    if flags.testBit f.bit then
      (f.name, (leBytes (pySlice data off f.width) : ℚ) / f.scale) ::
        specDecodeAux data flags rest (off + f.width)
    else specDecodeAux data flags rest off

/-- Spec-side decoder on a whole payload: flags are byte 0, fields start at
offset 2. -/
def specDecodeIndoorBike (data : List Nat) : List (String × ℚ) :=
  specDecodeAux data (data.headD 0) bikeFieldTable 2

/-- Number of bytes a payload with the given flag byte must contain for all
flagged fields to lie inside it: 2 header bytes plus the widths of the
flagged fields. -/
def requiredLen (flags : Nat) : Nat :=
  2 + bikeFieldTable.foldl
    (fun acc f => if flags.testBit f.bit then acc + f.width else acc) 0

/-- The body of `_mock_data_loop`'s update (`ble_manager.py` lines 77-86):
for each of the nine metrics (the keys returned by `_generate_mock_data`,
lines 59-69, which are exactly `metricNames` in the same order) append the
generated value at the current time and trim the retention window.  The
generated values themselves come from floating-point sinusoids and are
abstracted as an arbitrary assignment `g` of value to metric name; which
value is appended is irrelevant to the properties proved here. -/
def mockStep (g : String → ℚ) (now : ℚ) (st : Store) : Store :=
  metricNames.foldl (fun acc n => storeAppendEvict acc n (g n) now) st

/-- Session-end clearing (`workout_manager.py` lines 148-150): every key's
`values` and `timestamps` lists are reset to `[]`; the keys themselves
remain. -/
def clearStore (st : Store) : Store := st.map (fun e => (e.1, []))

/-- The operations that touch the metrics store. -/
inductive StoreOp
  | hr (data : List Nat) (now : ℚ)
  | bike (data : List Nat) (now : ℚ)
  | mock (g : String → ℚ) (now : ℚ)
  | clear

/-- Apply one store operation. -/
def applyOp (st : Store) : StoreOp → Store
  | .hr data now => handleHeartRate data now st
  | .bike data now => handleIndoorBike data now st
  | .mock g now => mockStep g now st
  | .clear => clearStore st

/-- Run a sequence of store operations from the freshly constructed
store. -/
def runOps (ops : List StoreOp) : Store := ops.foldl applyOp initStore

/-- The key set (in order) of the store. -/
def storeKeys (st : Store) : List String := st.map Prod.fst

/-- Reference-level model of the metrics dictionary, for the snapshot
claim: each metric maps to the identities of its two Python list objects,
and a heap assigns current contents to each list identity.  This captures
object aliasing, which the plain value model cannot express. -/
structure SeriesRef where
  valuesId : Nat
  timestampsId : Nat
deriving DecidableEq, Repr

/-- Manager state at the reference level: the `self.metrics` dictionary
(name to list identities) plus the heap of list contents (only values
lists are read in the theorems, so one `ℚ` heap suffices for both ids). -/
structure MgrRefState where
  metrics : List (String × SeriesRef)
  heap : Nat → List ℚ

/-- `BLEManager.__init__` at the reference level: nine keys, each with two
freshly allocated (distinct) empty lists. -/
def initRefState : MgrRefState :=
  { metrics := metricNames.enum.map (fun p => (p.2, ⟨2 * p.1, 2 * p.1 + 1⟩))
    heap := fun _ => [] }

/-- `get_metrics_data` (`ble_manager.py` lines 244-246): `return
self.metrics` — the dictionary itself, holding the same list objects; no
copy of any kind is made. -/
def get_metrics_data (s : MgrRefState) : List (String × SeriesRef) :=
  s.metrics

/-- `list.append` on the heap: mutate the list object with identity `i`. -/
def heapAppend (h : Nat → List ℚ) (i : Nat) (v : ℚ) : Nat → List ℚ :=
  fun j => if j = i then h j ++ [v] else h j

/-- Read the store's own values list for a metric (what
`self.metrics[name]['values']` currently holds). -/
def readValues (s : MgrRefState) (name : String) : Option (List ℚ) :=
  (List.lookup name s.metrics).map (fun r => s.heap r.valuesId)

/-- One saved series as `calculate_workout_summary` consumes it
(`workout_manager.py`): parallel `values` / `timestamps` lists. -/
structure SeriesData where
  values : List ℚ
  timestamps : List ℚ
deriving DecidableEq, Repr

/-- Python `max` over a list of floats, with `max(l, default=0)`
behaviour on the empty list (the only empty-list call site,
`workout_manager.py` line 24, passes `default=0`). -/
def pyListMax : List ℚ → ℚ
  | [] => 0
  | h :: t => t.foldl max h

/-- Python `min` over a list of floats (only called on nonempty lists;
the empty case is arbitrary). -/
def pyListMin : List ℚ → ℚ
  | [] => 0
  | h :: t => t.foldl min h

/-- The per-metric body of `calculate_workout_summary`
(`workout_manager.py` lines 21-38), keeping the numeric values computed at
lines 24, 29 and 30; the subsequent string formatting (unit suffixes and
`int(...)` truncation in the f-strings) is presentation, which spec §4.6
places out of core scope.  `distance` contributes only its maximum divided
by 1000; the legacy key `timestamps` is skipped; any other metric with a
nonempty values list contributes its arithmetic mean and its maximum. -/
def summarizeMetric (name : String) (d : SeriesData) : List (String × ℚ) :=
  if name = "distance" then [("distance", pyListMax d.values / 1000)]
  else if name = "timestamps" then []
  else if d.values.isEmpty then []
  else [("avg_" ++ name, d.values.sum / (d.values.length : ℚ)),
        ("max_" ++ name, pyListMax d.values)]

/-- The duration computation of `calculate_workout_summary`
(`workout_manager.py` lines 41-48): `max - min` over the `heart_rate`
series' timestamps, and zero when the metrics mapping is empty or the
`heart_rate` timestamps list is empty or absent. -/
def durationSeconds (metrics : List (String × SeriesData)) : ℚ :=
  if metrics.isEmpty then 0
  else
    match List.lookup "heart_rate" metrics with
    | some d =>
      if d.timestamps.isEmpty then 0
      else pyListMax d.timestamps - pyListMin d.timestamps
    | none => 0

/-- `calculate_workout_summary` (`workout_manager.py` lines 15-50): the
per-metric entries in dictionary iteration order, paired with the session
duration in seconds. -/
def calculate_workout_summary (metrics : List (String × SeriesData)) :
    List (String × ℚ) × ℚ :=
  (metrics.foldl (fun acc e => acc ++ summarizeMetric e.1 e.2) [],
   durationSeconds metrics)

/-- The transport client as far as `disconnect_device` / `is_connected`
inspect it: only `client.is_connected` matters. -/
structure ClientState where
  is_connected : Bool
deriving DecidableEq, Repr

/-- The connection-session fields of `BLEManager` that the disconnect
logic reads and writes (`client`, `connected_device`, `event_loop`,
`mock_data_task`, and the constant `is_test_mode`).  Option/Bool stand for
Python's `None`-or-object fields. -/
structure SessionState where
  is_test_mode : Bool
  client : Option ClientState
  connected_device : Option String
  event_loop : Bool
  mock_data_task : Bool
deriving DecidableEq, Repr

/-- `is_connected` (`ble_manager.py` lines 238-242). -/
def is_connected (s : SessionState) : Bool :=
  if s.is_test_mode then s.connected_device.isSome
  else
    match s.client with
    | some c => c.is_connected
    | none => false

/-- `disconnect_device` (`ble_manager.py` lines 213-236).  `transportOk`
says whether the transport calls (`stop_notify` / `disconnect`) succeed
when they are reached; when one raises, the surrounding `except` logs and
returns `False` with the session fields not yet reset.  In test mode and
whenever `self.client and self.client.is_connected` is falsy no transport
call happens, so no exception is possible and the result is `True`. -/
def disconnect_device (transportOk : Bool) (s : SessionState) :
    Bool × SessionState :=
  if s.is_test_mode then
    (true, { s with mock_data_task := false, connected_device := none,
                    event_loop := false })
  else
    match s.client with
    | some c =>
      if c.is_connected then
        if transportOk then
          (true, { s with client := none, connected_device := none,
                          event_loop := false })
        else (false, s)
      else
        (true, { s with client := none, connected_device := none,
                        event_loop := false })
    | none =>
      (true, { s with client := none, connected_device := none,
                      event_loop := false })

/-- A raw discovery result as `BleakScanner.discover` yields it: possibly
nameless, with an address and an RSSI. -/
structure RawDevice where
  name : Option String
  address : String
  rssi : Int
deriving DecidableEq, Repr

/-- A scan result entry as `scan_devices` returns it. -/
structure DeviceDescriptor where
  name : String
  address : String
  rssi : Int
deriving DecidableEq, Repr

/-- The fixed keyword set of `scan_devices` (`ble_manager.py` line 292). -/
def fitnessKeywords : List String :=
  ["bike", "cycle", "fitness", "heart", "polar", "wahoo", "garmin"]

/-- Lower-case a string's characters (Python `str.lower` on the ASCII
names involved). -/
def lowerChars (s : String) : List Char := s.data.map Char.toLower

/-- Python substring containment `needle in hay`: some suffix of `hay`
starts with `needle`. -/
def listContainsSub (hay needle : List Char) : Bool :=
  hay.tails.any (fun t => needle.isPrefixOf t)

/-- `device_name = str(device.name).lower()` (`ble_manager.py` line 290):
a `None` name becomes the literal string `"None"` before lowering. -/
def pyDeviceNameLower (d : RawDevice) : List Char :=
  match d.name with
  | some n => lowerChars n
  | none => lowerChars "None"

/-- The filter condition of `scan_devices` (lines 291-292): the lowered
name is truthy (nonempty) and contains at least one fitness keyword. -/
def passesFitnessFilter (d : RawDevice) : Bool :=
  !(pyDeviceNameLower d).isEmpty &&
    fitnessKeywords.any (fun k => listContainsSub (pyDeviceNameLower d) k.data)

/-- The descriptor built for a kept device (lines 293-297):
`device.name or 'Unknown Device'`. -/
def toDescriptor (d : RawDevice) : DeviceDescriptor :=
  { name :=
      match d.name with
      | some n => if n = "" then "Unknown Device" else n
      | none => "Unknown Device"
    address := d.address
    rssi := d.rssi }

/-- Filter and sort of `scan_devices` (lines 289-299):
`sorted(fitness_devices, key=lambda x: x['rssi'], reverse=True)`, i.e. a
stable sort with strongest signal first. -/
def scanFilterSort (raw : List RawDevice) : List DeviceDescriptor :=
  ((raw.filter passesFitnessFilter).map toDescriptor).mergeSort
    (fun a b => decide (b.rssi ≤ a.rssi))

/-- `get_mock_devices` (`ble_manager.py` lines 266-271). -/
def mockDevices : List DeviceDescriptor :=
  [⟨"Mock Heart Rate Monitor", "00:11:22:33:44:55", -65⟩,
   ⟨"Mock Smart Bike", "66:77:88:99:AA:BB", -70⟩]

/-- The host platform as `platform.system()` reports it. -/
inductive HostPlatform
  | linuxHost
  | windowsHost
  | darwinHost
  | otherHost
deriving DecidableEq, Repr

/-- Outcome of the platform-specific capability probe inside
`check_bluetooth_availability`: the probed boolean, or an exception raised
anywhere inside the `try` block. -/
inductive ProbeOutcome
  | ok (b : Bool)
  | exc
deriving DecidableEq, Repr

/-- `check_bluetooth_availability` (`ble_manager.py` lines 248-264).  On
Linux and Darwin a successful probe returns `True`; on Windows it returns
the probed boolean; any exception is caught, logged at warning level, and
turned into `False`; on an unrecognized platform the function falls off
the end of the `try` block and returns Python `None` (modelled `none`).
The function itself never raises. -/
def check_bluetooth_availability :
    HostPlatform → ProbeOutcome → Option Bool
  | .linuxHost, .ok _ => some true
  | .linuxHost, .exc => some false
  | .windowsHost, .ok b => some b
  | .windowsHost, .exc => some false
  | .darwinHost, .ok _ => some true
  | .darwinHost, .exc => some false
  | .otherHost, _ => none

/-- Python truthiness of the prober's result (`if not await
self.check_bluetooth_availability()`): `None` and `False` are falsy. -/
def pyTruthy : Option Bool → Bool
  | some b => b
  | none => false

/-- What `scan_devices` produces: a device list, or the
`BluetoothNotAvailableError` raised when the prober gates scanning. -/
inductive ScanOutcome
  | found (ds : List DeviceDescriptor)
  | unavailableError
deriving DecidableEq, Repr

/-- `scan_devices` (`ble_manager.py` lines 273-299) restricted to the
prober/discovery control flow of lines 275-299: in test mode the fixed
mock devices are returned with no probe and no discovery; otherwise the
prober runs first and a falsy result raises `BluetoothNotAvailableError`
before `BleakScanner.discover()` is reached.  The second component
records whether discovery was attempted. -/
def scan_devices (testMode : Bool) (plat : HostPlatform)
    (probe : ProbeOutcome) (raw : List RawDevice) : ScanOutcome × Bool :=
  if testMode then (.found mockDevices, false)
  else if pyTruthy (check_bluetooth_availability plat probe) then
    (.found (scanFilterSort raw), true)
  else (.unavailableError, false)

theorem and_shiftLeft_ne_zero_iff (n k : Nat) :
    (n &&& (1 <<< k) ≠ 0) ↔ n.testBit k = true := by
  rw [Nat.one_shiftLeft, Nat.and_two_pow]
  cases h : n.testBit k <;>
    simp [h, (Nat.pos_pow_of_pos k (by norm_num : 0 < 2)).ne.symm]

theorem specDecodeAux_keys (data : List Nat) (flags : Nat)
    (tbl : List BikeField) (off : Nat) :
    (specDecodeAux data flags tbl off).map Prod.fst =
      (tbl.filter (fun f => flags.testBit f.bit)).map BikeField.name := by
  induction tbl generalizing off with
  | nil => simp [specDecodeAux]
  | cons f rest ih =>
    by_cases h : flags.testBit f.bit <;> simp [specDecodeAux, h, ih]

theorem mem_of_mem_evict {c : ℚ} {s : Series} {x : Sample}
    (h : x ∈ evict c s) : x ∈ s :=
  (List.dropWhile_sublist _).mem h

theorem evict_lower_bound {c : ℚ} {s : Series}
    (hsort : List.Pairwise (fun a b : Sample => a.timestamp ≤ b.timestamp) s) :
    ∀ x ∈ evict c s, c ≤ x.timestamp := by
  induction s with
  | nil => simp [evict]
  | cons a t ih =>
    intro x hx
    rcases List.pairwise_cons.mp hsort with ⟨ha, ht⟩
    by_cases hc : a.timestamp < c
    · exact ih ht x (by simpa [evict, hc] using hx)
    · rw [evict, List.dropWhile_cons_of_neg (by simpa using hc)] at hx
      rcases List.mem_cons.mp hx with rfl | hx
      · exact le_of_not_lt hc
      · exact le_trans (le_of_not_lt hc) (ha x hx)

theorem evict_all_old {c : ℚ} {s : Series}
    (h : ∀ x ∈ s, x.timestamp < c) : evict c s = [] := by
  induction s with
  | nil => rfl
  | cons a t ih =>
    rw [evict, List.dropWhile_cons_of_pos (by simpa using h a (by simp))]
    exact ih (fun x hx => h x (by simp [hx]))

theorem foldl_max_mem (t : List ℚ) (a : ℚ) : t.foldl max a ∈ a :: t := by
  induction t generalizing a with
  | nil => simp
  | cons h t ih =>
    rw [List.foldl_cons]
    rcases List.mem_cons.mp (ih (max a h)) with hm | hm
    · rw [hm]
      rcases max_choice a h with he | he <;> simp [he]
    · simp [hm]

theorem le_foldl_max_self (t : List ℚ) (a : ℚ) : a ≤ t.foldl max a := by
  induction t generalizing a with
  | nil => simp
  | cons h t ih => exact le_trans (le_max_left a h) (ih (max a h))

theorem le_foldl_max_of_mem (t : List ℚ) (a : ℚ) :
    ∀ v ∈ t, v ≤ t.foldl max a := by
  induction t generalizing a with
  | nil => simp
  | cons h t ih =>
    intro v hv
    rcases List.mem_cons.mp hv with rfl | hv
    · exact le_trans (le_max_right a v) (le_foldl_max_self t (max a v))
    · exact ih (max a h) v hv

theorem pyListMax_mem {l : List ℚ} (h : l ≠ []) : pyListMax l ∈ l := by
  cases l with
  | nil => exact absurd rfl h
  | cons a t => exact foldl_max_mem t a

theorem le_pyListMax {l : List ℚ} : ∀ v ∈ l, v ≤ pyListMax l := by
  cases l with
  | nil => simp
  | cons a t =>
    intro v hv
    rcases List.mem_cons.mp hv with rfl | hv
    · exact le_foldl_max_self t v
    · exact le_foldl_max_of_mem t a v hv

theorem foldl_min_mem (t : List ℚ) (a : ℚ) : t.foldl min a ∈ a :: t := by
  induction t generalizing a with
  | nil => simp
  | cons h t ih =>
    rw [List.foldl_cons]
    rcases List.mem_cons.mp (ih (min a h)) with hm | hm
    · rw [hm]
      rcases min_choice a h with he | he <;> simp [he]
    · simp [hm]

theorem foldl_min_le_self (t : List ℚ) (a : ℚ) : t.foldl min a ≤ a := by
  induction t generalizing a with
  | nil => simp
  | cons h t ih => exact le_trans (ih (min a h)) (min_le_left a h)

theorem foldl_min_le_of_mem (t : List ℚ) (a : ℚ) :
    ∀ v ∈ t, t.foldl min a ≤ v := by
  induction t generalizing a with
  | nil => simp
  | cons h t ih =>
    intro v hv
    rcases List.mem_cons.mp hv with rfl | hv
    · exact le_trans (foldl_min_le_self t (min a v)) (min_le_right a v)
    · exact ih (min a h) v hv

theorem pyListMin_mem {l : List ℚ} (h : l ≠ []) : pyListMin l ∈ l := by
  cases l with
  | nil => exact absurd rfl h
  | cons a t => exact foldl_min_mem t a

theorem pyListMin_le {l : List ℚ} : ∀ v ∈ l, pyListMin l ≤ v := by
  cases l with
  | nil => simp
  | cons a t =>
    intro v hv
    rcases List.mem_cons.mp hv with rfl | hv
    · exact foldl_min_le_self t v
    · exact foldl_min_le_of_mem t a v hv

theorem storeKeys_storeAppend (st : Store) (n : String) (v t : ℚ) :
    storeKeys (storeAppend st n v t) = storeKeys st := by
  simp only [storeKeys, storeAppend, List.map_map]
  refine List.map_congr_left (fun e _ => ?_)
  by_cases h : e.1 = n <;> simp [h]

theorem storeKeys_storeAppendEvict (st : Store) (n : String) (v now : ℚ) :
    storeKeys (storeAppendEvict st n v now) = storeKeys st := by
  simp only [storeKeys, storeAppendEvict, List.map_map]
  refine List.map_congr_left (fun e _ => ?_)
  by_cases h : e.1 = n <;> simp [h]

theorem storeKeys_clearStore (st : Store) :
    storeKeys (clearStore st) = storeKeys st := by
  simp [storeKeys, clearStore, List.map_map]

theorem storeKeys_foldl {α : Type} (f : Store → α → Store)
    (hf : ∀ st a, storeKeys (f st a) = storeKeys st) :
    ∀ (l : List α) (st : Store), storeKeys (l.foldl f st) = storeKeys st := by
  intro l
  induction l with
  | nil => simp
  | cons a t ih => intro st; rw [List.foldl_cons, ih, hf]

theorem storeKeys_applyOp (st : Store) (op : StoreOp) :
    storeKeys (applyOp st op) = storeKeys st := by
  cases op with
  | hr data now =>
    simp only [applyOp, handleHeartRate]
    cases data.get? 1 <;> simp [storeKeys_storeAppend]
  | bike data now =>
    cases data with
    | nil => simp [applyOp, handleIndoorBike]
    | cons b bs =>
      simp only [applyOp, handleIndoorBike]
      exact storeKeys_foldl _ (fun st (e : String × ℚ) => storeKeys_storeAppend st e.1 e.2 now) _ st
  | mock g now =>
    simp only [applyOp, mockStep]
    exact storeKeys_foldl _ (fun st (n : String) => storeKeys_storeAppendEvict st n (g n) now) _ st
  | clear => simp [applyOp, storeKeys_clearStore]

set_option maxHeartbeats 3200000 in
theorem decode_eq_spec (data : List Nat) :
    decodeIndoorBike data = specDecodeIndoorBike data := by
  simp only [decodeIndoorBike, specDecodeIndoorBike]
  generalize data.headD 0 = flags
  have c1 := propext (and_shiftLeft_ne_zero_iff flags 1)
  have c2 := propext (and_shiftLeft_ne_zero_iff flags 2)
  have c3 := propext (and_shiftLeft_ne_zero_iff flags 3)
  have c4 := propext (and_shiftLeft_ne_zero_iff flags 4)
  have c5 := propext (and_shiftLeft_ne_zero_iff flags 5)
  have c6 := propext (and_shiftLeft_ne_zero_iff flags 6)
  have c7 := propext (and_shiftLeft_ne_zero_iff flags 7)
  simp only [c1, c2, c3, c4, c5, c6, c7]
  by_cases h1 : flags.testBit 1 <;> by_cases h2 : flags.testBit 2 <;>
    by_cases h3 : flags.testBit 3 <;> by_cases h4 : flags.testBit 4 <;>
    by_cases h5 : flags.testBit 5 <;> by_cases h6 : flags.testBit 6 <;>
    by_cases h7 : flags.testBit 7 <;>
    simp [specDecodeAux, bikeFieldTable, h1, h2, h3, h4, h5, h6, h7]

/-- C3: for every valid indoor-bike payload (long enough for all flagged
fields), the decoder extracts exactly the fields whose flag bits are set,
in the fixed table order with the table's offsets, widths and scales
(`decodeIndoorBike` coincides with the decoder written from the spec's
field table, and its keys are exactly the names of the set bits); in
particular flags `0b01000100` with cadence bytes `[0x64,0x00]` at offset 2
and power bytes `[0xB4,0x00]` at offset 4 decode to cadence 50 and power
180. -/
theorem C3_decoder_fields (data : List Nat)
    (h : requiredLen (data.headD 0) ≤ data.length) :
    decodeIndoorBike data = specDecodeIndoorBike data ∧
    (decodeIndoorBike data).map Prod.fst =
      (bikeFieldTable.filter (fun f => (data.headD 0).testBit f.bit)).map
        BikeField.name ∧
    decodeIndoorBike [0x44, 0x00, 0x64, 0x00, 0xB4, 0x00] =
      [("cadence", 50), ("power", 180)] := by
  refine ⟨decode_eq_spec data, ?_, ?_⟩
  · rw [decode_eq_spec data]
    exact specDecodeAux_keys data (data.headD 0) bikeFieldTable 2
  · have e1 : (68 : Nat) &&& 2 = 0 := by decide
    have e2 : (68 : Nat) &&& 4 = 4 := by decide
    have e3 : (68 : Nat) &&& 8 = 0 := by decide
    have e4 : (68 : Nat) &&& 16 = 0 := by decide
    have e5 : (68 : Nat) &&& 32 = 0 := by decide
    have e6 : (68 : Nat) &&& 64 = 64 := by decide
    have e7 : (68 : Nat) &&& 128 = 0 := by decide
    simp [decodeIndoorBike, pySlice, leBytes, e1, e2, e3, e4, e5, e6, e7]
    norm_num

theorem C3_decoder_fields_witness :
    requiredLen (([0x44, 0x00, 0x64, 0x00, 0xB4, 0x00] : List Nat).headD 0) ≤
      ([0x44, 0x00, 0x64, 0x00, 0xB4, 0x00] : List Nat).length ∧
    decodeIndoorBike [0x44, 0x00, 0x64, 0x00, 0xB4, 0x00] =
      specDecodeIndoorBike [0x44, 0x00, 0x64, 0x00, 0xB4, 0x00] :=
  ⟨by decide,
   (C3_decoder_fields [0x44, 0x00, 0x64, 0x00, 0xB4, 0x00] (by decide)).1⟩

/-- C1: the claim says a payload whose flag bits promise more bytes than
are present makes the decoder fail with a `DecodeError` and leaves the
store unchanged.  The code does neither: Python slicing truncates
silently, `int.from_bytes(b'')` is `0`, so the handler decodes the
missing field as value 0 and appends it to the store.  Evaluated at the
failing input `[0x02, 0x00]` (bit 1 set, no avg_speed bytes): the
`avg_speed` series, empty in the fresh store, gains the sample `(0, now)`
and no failure occurs. -/
theorem C1_truncated_eval :
    readStore (handleIndoorBike [0x02, 0x00] 0 initStore) "avg_speed" =
      some [⟨0, 0⟩] ∧
    readStore initStore "avg_speed" = some [] := by
  constructor
  · have hdec : decodeIndoorBike [0x02, 0x00] = [("avg_speed", 0)] := by
      have e1 : (2 : Nat) &&& 2 = 2 := by decide
      have e2 : (2 : Nat) &&& 4 = 0 := by decide
      have e3 : (2 : Nat) &&& 8 = 0 := by decide
      have e4 : (2 : Nat) &&& 16 = 0 := by decide
      have e5 : (2 : Nat) &&& 32 = 0 := by decide
      have e6 : (2 : Nat) &&& 64 = 0 := by decide
      have e7 : (2 : Nat) &&& 128 = 0 := by decide
      simp [decodeIndoorBike, pySlice, leBytes, e1, e2, e3, e4, e5, e6, e7]
    have hrw : handleIndoorBike [0x02, 0x00] 0 initStore =
        (decodeIndoorBike [0x02, 0x00]).foldl
          (fun acc e => storeAppend acc e.1 e.2 0) initStore := rfl
    rw [hrw, hdec]
    decide
  · decide

/-- C10: the store's key set is invariant: the freshly constructed store
has exactly the nine metric keys, and every sequence of store operations
(heart-rate handling, indoor-bike handling, simulated-mode steps,
session-end clearing) preserves them — no operation adds or removes a
key. -/
theorem C10_metric_keys (ops : List StoreOp) :
    storeKeys (runOps ops) = metricNames := by
  have h : ∀ (l : List StoreOp) (st : Store),
      storeKeys (l.foldl applyOp st) = storeKeys st := by
    intro l
    induction l with
    | nil => simp
    | cons op t ih => intro st; rw [List.foldl_cons, ih, storeKeys_applyOp]
  have base : storeKeys initStore = metricNames := by decide
  calc storeKeys (runOps ops) = storeKeys initStore := h ops initStore
    _ = metricNames := base

/-- C2 (amended): the retention invariant holds for the append performed
by the simulated-mode data loop — the only append path that evicts.  If a
series is time-ordered and all its timestamps are at most `now`, then
after `appendEvict` at `now` every retained sample's timestamp lies in
`[now - 300, now]`; and the eviction empties a series all of whose samples
are older than the window.  (The real notification handlers append
without evicting, so the invariant does not hold for their appends; see
the counterexample.) -/
theorem C2_retention_window (s : Series) (v now : ℚ)
    (hsort : List.Pairwise (fun a b : Sample => a.timestamp ≤ b.timestamp) s)
    (hpast : ∀ smp ∈ s, smp.timestamp ≤ now) :
    (∀ smp ∈ appendEvict s v now,
        now - 300 ≤ smp.timestamp ∧ smp.timestamp ≤ now) ∧
    ((∀ smp ∈ s, smp.timestamp < now - 300) → evict (now - 300) s = []) := by
  constructor
  · intro smp hmem
    have hsort' : List.Pairwise (fun a b : Sample => a.timestamp ≤ b.timestamp)
        (s ++ [⟨v, now⟩]) := by
      rw [List.pairwise_append]
      refine ⟨hsort, List.pairwise_singleton _ _, ?_⟩
      intro a ha b hb
      rw [List.mem_singleton] at hb
      subst hb
      exact hpast a ha
    refine ⟨evict_lower_bound hsort' smp hmem, ?_⟩
    have hmem' : smp ∈ s ++ [⟨v, now⟩] := mem_of_mem_evict hmem
    rcases List.mem_append.mp hmem' with hs | hnew
    · exact hpast smp hs
    · rw [List.mem_singleton] at hnew
      subst hnew
      exact le_refl _
  · exact evict_all_old

theorem C2_retention_window_witness :
    (∀ smp ∈ appendEvict [⟨1, 0⟩] 5 100,
        (100 : ℚ) - 300 ≤ smp.timestamp ∧ smp.timestamp ≤ 100) ∧
    ((∀ smp ∈ ([⟨1, 0⟩] : Series), smp.timestamp < (100 : ℚ) - 300) →
        evict ((100 : ℚ) - 300) [⟨1, 0⟩] = []) :=
  C2_retention_window [⟨1, 0⟩] 5 100 (List.pairwise_singleton _ _)
    (by intro smp hmem; rw [List.mem_singleton] at hmem; subst hmem; norm_num)

/-- C2 (counterexample): the claim as stated — after any append, every
retained sample lies in `[now - 300, now]` — fails for the real
heart-rate handler, which appends without evicting: two heart-rate
notifications at times 0 and 400 leave the sample with timestamp 0 in the
store although 0 < 400 - 300. -/
theorem C2_counterexample :
    readStore
        (handleHeartRate [0, 101] 400 (handleHeartRate [0, 100] 0 initStore))
        "heart_rate" = some [⟨100, 0⟩, ⟨101, 400⟩] ∧
    (0 : ℚ) < 400 - 300 := by
  constructor
  · have h1 : handleHeartRate [0, 100] 0 initStore =
        storeAppend initStore "heart_rate" ((100 : Nat) : ℚ) 0 := rfl
    have h2 : ((100 : Nat) : ℚ) = 100 := by norm_num
    have h3 : ((101 : Nat) : ℚ) = 101 := by norm_num
    have h4 : ∀ st : Store, handleHeartRate [0, 101] 400 st =
        storeAppend st "heart_rate" ((101 : Nat) : ℚ) 400 := fun _ => rfl
    rw [h4, h1, h2, h3]
    decide
  · norm_num

/-- C9: for every heart-rate payload of length at least two (so that byte
1 exists), the handler appends exactly the unsigned byte at offset 1 to
the `heart_rate` series with no range rejection; payload `[0x00, 0x8C]`
decodes to 140, and the out-of-physiological-range byte 255 is accepted
unchanged. -/
theorem C9_heart_rate_decode (data : List Nat) (now : ℚ) (st : Store)
    (b : Nat) (h : data.get? 1 = some b) :
    handleHeartRate data now st = storeAppend st "heart_rate" (b : ℚ) now ∧
    readStore (handleHeartRate [0x00, 0x8C] now initStore) "heart_rate" =
      some [⟨140, now⟩] ∧
    readStore (handleHeartRate [0x00, 255] now initStore) "heart_rate" =
      some [⟨255, now⟩] := by
  refine ⟨?_, ?_, ?_⟩
  · rw [handleHeartRate, h]
  · have h1 : handleHeartRate [0x00, 0x8C] now initStore =
        storeAppend initStore "heart_rate" ((140 : Nat) : ℚ) now := rfl
    have h2 : ((140 : Nat) : ℚ) = 140 := by norm_num
    rw [h1, h2]
    simp [storeAppend, initStore, metricNames, readStore]
  · have h1 : handleHeartRate [0x00, 255] now initStore =
        storeAppend initStore "heart_rate" ((255 : Nat) : ℚ) now := rfl
    have h2 : ((255 : Nat) : ℚ) = 255 := by norm_num
    rw [h1, h2]
    simp [storeAppend, initStore, metricNames, readStore]

theorem C9_heart_rate_decode_witness :
    ([0x00, 0x8C] : List Nat).get? 1 = some 0x8C ∧
    handleHeartRate [0x00, 0x8C] 0 initStore =
      storeAppend initStore "heart_rate" ((0x8C : Nat) : ℚ) 0 :=
  ⟨rfl, (C9_heart_rate_decode [0x00, 0x8C] 0 initStore 0x8C rfl).1⟩

/-- C4 (amended): `get_metrics_data` returns `self.metrics` itself, not a
copy: the mapping it hands out holds the very list objects of the store,
so appending to a list reached through the returned snapshot is an append
to the store's own series. -/
theorem C4_snapshot_alias (s : MgrRefState) (name : String) (r : SeriesRef)
    (v : ℚ) (h : List.lookup name (get_metrics_data s) = some r) :
    readValues { s with heap := heapAppend s.heap r.valuesId v } name =
      some (s.heap r.valuesId ++ [v]) := by
  have hm : List.lookup name s.metrics = some r := h
  simp [readValues, hm, heapAppend]

theorem C4_snapshot_alias_witness :
    List.lookup "heart_rate" (get_metrics_data initRefState) =
      some ⟨0, 1⟩ ∧
    readValues { initRefState with heap := heapAppend initRefState.heap 0 5 }
        "heart_rate" = some (initRefState.heap 0 ++ [5]) :=
  ⟨by decide, C4_snapshot_alias initRefState "heart_rate" ⟨0, 1⟩ 5 (by decide)⟩

/-- C4 (counterexample): the claim that the snapshot is a deep copy — so
that mutating it leaves the store unchanged — is false: after appending 42
through the list object found in the returned snapshot, the store's own
`heart_rate` values list reads `[42]`, no longer the `[]` it held
before. -/
theorem C4_counterexample :
    List.lookup "heart_rate" (get_metrics_data initRefState) = some ⟨0, 1⟩ ∧
    readValues { initRefState with heap := heapAppend initRefState.heap 0 42 }
        "heart_rate" = some [42] ∧
    readValues initRefState "heart_rate" = some [] := by
  refine ⟨by decide, by decide, by decide⟩

/-- C6: `disconnect_device` on an already-disconnected session reports
success, never an error, and leaves the session disconnected; a second
call does the same, whatever the transport would have done had it been
reached. -/
theorem C6_disconnect_idempotent (s : SessionState) (ok1 ok2 : Bool)
    (h : is_connected s = false) :
    (disconnect_device ok1 s).1 = true ∧
    is_connected (disconnect_device ok1 s).2 = false ∧
    (disconnect_device ok2 (disconnect_device ok1 s).2).1 = true ∧
    is_connected (disconnect_device ok2 (disconnect_device ok1 s).2).2 =
      false := by
  rcases s with ⟨tm, client, cd, el, mt⟩
  cases tm with
  | false =>
    cases client with
    | none => simp [disconnect_device, is_connected]
    | some c =>
      have hc : c.is_connected = false := by simpa [is_connected] using h
      simp [disconnect_device, is_connected, hc]
  | true =>
    cases cd with
    | some d => simp [is_connected] at h
    | none => simp [disconnect_device, is_connected]

theorem C6_disconnect_idempotent_witness :
    (disconnect_device true ⟨false, none, none, false, false⟩).1 = true ∧
    is_connected (disconnect_device true ⟨false, none, none, false, false⟩).2 =
      false ∧
    (disconnect_device false
        (disconnect_device true ⟨false, none, none, false, false⟩).2).1 =
      true ∧
    is_connected
        (disconnect_device false
          (disconnect_device true ⟨false, none, none, false, false⟩).2).2 =
      false :=
  C6_disconnect_idempotent ⟨false, none, none, false, false⟩ true false
    (by decide)

/-- C5: the workout summary reports, for every metric other than
`distance` (and the legacy `timestamps` key) with a nonempty series, an
average `a` with `length * a = sum` (the arithmetic mean) and a maximum
that belongs to the series and bounds all its values; for `distance` only
the maximum divided by 1000; the duration is `max - min` over the
`heart_rate` timestamps and zero when that series is empty; and
heart-rate values `[100, 140, 120]` at timestamps `[0, 30, 60]` yield
average 120, maximum 140 and duration 60. -/
theorem C5_summary :
    (∀ (name : String) (d : SeriesData), name ≠ "distance" →
      name ≠ "timestamps" → d.values ≠ [] →
      ∃ a m, summarizeMetric name d =
          [("avg_" ++ name, a), ("max_" ++ name, m)] ∧
        (d.values.length : ℚ) * a = d.values.sum ∧
        m ∈ d.values ∧ ∀ v ∈ d.values, v ≤ m) ∧
    (∀ d : SeriesData, d.values ≠ [] →
      ∃ m, summarizeMetric "distance" d = [("distance", m / 1000)] ∧
        m ∈ d.values ∧ ∀ v ∈ d.values, v ≤ m) ∧
    (∀ (metrics : List (String × SeriesData)) (d : SeriesData),
      List.lookup "heart_rate" metrics = some d →
      (d.timestamps ≠ [] →
        ∃ tmax tmin, durationSeconds metrics = tmax - tmin ∧
          tmax ∈ d.timestamps ∧ tmin ∈ d.timestamps ∧
          ∀ t ∈ d.timestamps, tmin ≤ t ∧ t ≤ tmax) ∧
      (d.timestamps = [] → durationSeconds metrics = 0)) ∧
    calculate_workout_summary
        [("heart_rate", ⟨[100, 140, 120], [0, 30, 60]⟩)] =
      ([("avg_heart_rate", 120), ("max_heart_rate", 140)], 60) := by
  refine ⟨?_, ?_, ?_, ?_⟩
  · intro name d hn ht hv
    refine ⟨d.values.sum / d.values.length, pyListMax d.values, ?_, ?_,
      pyListMax_mem hv, le_pyListMax⟩
    · simp [summarizeMetric, hn, ht, hv]
    · have hlen : (d.values.length : ℚ) ≠ 0 :=
        Nat.cast_ne_zero.mpr (List.length_pos.mpr hv).ne'
      field_simp
  · intro d hv
    exact ⟨pyListMax d.values, by simp [summarizeMetric],
      pyListMax_mem hv, le_pyListMax⟩
  · intro metrics d hlook
    have hne : metrics ≠ [] := by
      intro he
      subst he
      simp at hlook
    constructor
    · intro hts
      refine ⟨pyListMax d.timestamps, pyListMin d.timestamps, ?_,
        pyListMax_mem hts, pyListMin_mem hts, fun t htm =>
          ⟨pyListMin_le t htm, le_pyListMax t htm⟩⟩
      simp [durationSeconds, hne, hlook, hts]
    · intro hts
      simp [durationSeconds, hne, hlook, hts]
  · have hs1 : ("heart_rate" : String) ≠ "distance" := by decide
    have hs2 : ("heart_rate" : String) ≠ "timestamps" := by decide
    have ha : "avg_" ++ "heart_rate" = "avg_heart_rate" := by decide
    have hm : "max_" ++ "heart_rate" = "max_heart_rate" := by decide
    simp [calculate_workout_summary, summarizeMetric, durationSeconds,
          pyListMax, pyListMin, hs1, hs2, ha, hm, max_def, min_def]
    norm_num

theorem C5_summary_witness :
    (("heart_rate" : String) ≠ "distance" ∧
      ("heart_rate" : String) ≠ "timestamps" ∧
      (⟨[100, 140, 120], [0, 30, 60]⟩ : SeriesData).values ≠ []) ∧
    ∃ a m,
      summarizeMetric "heart_rate" ⟨[100, 140, 120], [0, 30, 60]⟩ =
        [("avg_" ++ "heart_rate", a), ("max_" ++ "heart_rate", m)] ∧
      (((⟨[100, 140, 120], [0, 30, 60]⟩ : SeriesData).values.length : ℚ) * a =
        (⟨[100, 140, 120], [0, 30, 60]⟩ : SeriesData).values.sum) ∧
      m ∈ (⟨[100, 140, 120], [0, 30, 60]⟩ : SeriesData).values ∧
      ∀ v ∈ (⟨[100, 140, 120], [0, 30, 60]⟩ : SeriesData).values, v ≤ m :=
  ⟨⟨by decide, by decide, by simp⟩,
   C5_summary.1 "heart_rate" ⟨[100, 140, 120], [0, 30, 60]⟩ (by decide)
     (by decide) (by simp)⟩

/-- C7: the real-mode scan returns exactly the raw devices whose
advertised name passes the case-insensitive fitness-keyword filter
(a permutation of the filtered, descriptor-mapped raw list), sorted with
signal strength descending; a device with no name never passes the
filter; `"Wahoo KICKR"` passes and `"My Headphones"` does not. -/
theorem C7_scan_filter (raw : List RawDevice) :
    (scanFilterSort raw).Perm
      ((raw.filter passesFitnessFilter).map toDescriptor) ∧
    List.Pairwise (fun a b : DeviceDescriptor => b.rssi ≤ a.rssi)
      (scanFilterSort raw) ∧
    (∀ (addr : String) (r : Int),
      passesFitnessFilter ⟨none, addr, r⟩ = false) ∧
    (∀ (addr : String) (r : Int),
      passesFitnessFilter ⟨some "Wahoo KICKR", addr, r⟩ = true) ∧
    (∀ (addr : String) (r : Int),
      passesFitnessFilter ⟨some "My Headphones", addr, r⟩ = false) := by
  have htrans : ∀ a b c : DeviceDescriptor,
      decide (b.rssi ≤ a.rssi) = true → decide (c.rssi ≤ b.rssi) = true →
      decide (c.rssi ≤ a.rssi) = true := by
    intro a b c hab hbc
    rw [decide_eq_true_eq] at *
    exact le_trans hbc hab
  have htotal : ∀ a b : DeviceDescriptor,
      (decide (b.rssi ≤ a.rssi) || decide (a.rssi ≤ b.rssi)) = true := by
    intro a b
    rcases le_total b.rssi a.rssi with h | h <;> simp [h]
  refine ⟨List.mergeSort_perm _ _, ?_, ?_, ?_, ?_⟩
  · have hp := List.sorted_mergeSort htrans htotal
      ((raw.filter passesFitnessFilter).map toDescriptor)
    exact hp.imp (fun h => of_decide_eq_true h)
  · intro addr r
    have he : passesFitnessFilter ⟨none, addr, r⟩ =
        passesFitnessFilter ⟨none, "", 0⟩ := rfl
    rw [he]
    decide
  · intro addr r
    have he : passesFitnessFilter ⟨some "Wahoo KICKR", addr, r⟩ =
        passesFitnessFilter ⟨some "Wahoo KICKR", "", 0⟩ := rfl
    rw [he]
    decide
  · intro addr r
    have he : passesFitnessFilter ⟨some "My Headphones", addr, r⟩ =
        passesFitnessFilter ⟨some "My Headphones", "", 0⟩ := rfl
    rw [he]
    decide

/-- C8: in real mode the availability prober gates scanning: a falsy
prober result (including the `None` of an unrecognized platform) makes
`scan_devices` fail with the unavailable error without attempting
discovery; an exception inside the probe is itself turned into a falsy
return value rather than propagated; and discovery is only ever attempted
after the prober returned a truthy value. -/
theorem C8_prober_gate (plat : HostPlatform) (probe : ProbeOutcome)
    (raw : List RawDevice) :
    (pyTruthy (check_bluetooth_availability plat probe) = false →
      scan_devices false plat probe raw =
        (ScanOutcome.unavailableError, false)) ∧
    (check_bluetooth_availability plat ProbeOutcome.exc = some false ∨
      check_bluetooth_availability plat ProbeOutcome.exc = none) ∧
    ((scan_devices false plat probe raw).2 = true →
      pyTruthy (check_bluetooth_availability plat probe) = true) := by
  refine ⟨?_, ?_, ?_⟩
  · intro h
    simp [scan_devices, h]
  · cases plat <;> simp [check_bluetooth_availability]
  · intro h
    by_cases hp : pyTruthy (check_bluetooth_availability plat probe) = true
    · exact hp
    · rw [Bool.not_eq_true] at hp
      simp [scan_devices, hp] at h

theorem C8_prober_gate_witness :
    pyTruthy
        (check_bluetooth_availability HostPlatform.linuxHost
          ProbeOutcome.exc) = false ∧
    scan_devices false HostPlatform.linuxHost ProbeOutcome.exc [] =
      (ScanOutcome.unavailableError, false) :=
  ⟨by decide,
   (C8_prober_gate HostPlatform.linuxHost ProbeOutcome.exc []).1 (by decide)⟩
